import Mathlib

/-!
Shallow embedding of the mwahaha-vote web application core
(`src/web/src/mwahahavote/database.py`, `src/web/src/mwahahavote/__main__.py`,
`src/web/src/ingestion/submission.py`), together with theorems settling the
specification claims about it.

Conventions of the embedding:
* SQL tables are lists of row structures; SQL statements become list
  transformations.
* Python `defaultdict(int)` maps become functions into `Nat` (absent key = 0),
  built from association lists coming from the database cursors.
* `random.shuffle`, the partner shuffle and the 50% presentation swap are
  modelled by an `Oracle` of arbitrary functions; an oracle is `Valid` when its
  shuffle functions return permutations of their input, which covers every
  behaviour the real random generator can produce.
* Python `list.sort(key=...)` is a stable sort by the key; it is modelled with
  `List.insertionSort` (stable), whose output any stable sort agrees with.
* The selector is an unbounded `while` loop; it is modelled with explicit fuel:
  `runLoop` returns `none` when the fuel is exhausted while the loop condition
  still holds, so `(∀ fuel, runLoop ... = none)` expresses divergence.
-/

/-- `TASK_CHOICES` from `database.py`: the five task identifiers. -/
def TASK_CHOICES : List String := ["a-en", "a-es", "a-zh", "b1", "b2"]

/-- The `System` dataclass of `database.py` (identity is the id string). -/
structure System where
  id : String
deriving DecidableEq, Repr, Inhabited

/-- The `Prompt` dataclass of `database.py`: an id plus the optional content
fields (`word1`, `word2`, `headline`, `url`, `prompt`). -/
structure Prompt where
  id : String
  word1 : Option String := none
  word2 : Option String := none
  headline : Option String := none
  url : Option String := none
  prompt : Option String := none
deriving DecidableEq, Repr, Inhabited

/-- The `Output` dataclass of `database.py`: one system output for one prompt. -/
structure Output where
  prompt : Prompt
  system : System
  text : String
deriving DecidableEq, Repr, Inhabited

/-- The `Battle` dataclass of `database.py`: a pair of outputs.  (The Python
`__post_init__` check that both outputs share the prompt is not re-raised here;
every construction site in the embedded code passes a single shared prompt.) -/
structure Battle where
  output_a : Output
  output_b : Output
deriving DecidableEq, Repr, Inhabited

/-- `_create_battle_with_prompt` from `database.py` (lines 272-281): builds the
two outputs over the shared prompt and swaps the a/b labelling when the random
draw (modelled by `swapAB`) fires. -/
def createBattleWithPrompt (prompt : Prompt) (system_id_a text_a system_id_b text_b : String)
    (swapAB : Bool) : Battle :=
  let output_a : Output := ⟨prompt, ⟨system_id_a⟩, text_a⟩
  let output_b : Output := ⟨prompt, ⟨system_id_b⟩, text_b⟩
  if swapAB then ⟨output_b, output_a⟩ else ⟨output_a, output_b⟩

/-- One entry of the `candidate_outputs` list built in
`random_least_voted_unseen_battles` (lines 391-403): the four sort counters
followed by prompt id, system id and text. -/
structure Cand where
  sessionSeen : Nat
  sysVotes : Nat
  promptSeen : Nat
  promptVotes : Nat
  pid : String
  sid : String
  text : String
deriving DecidableEq, Repr, Inhabited

/-- The sort key `lambda c: (c[0], c[1], c[2], c[3])` of line 410. -/
def Cand.key (c : Cand) : Nat × Nat × Nat × Nat :=
  (c.sessionSeen, c.sysVotes, c.promptSeen, c.promptVotes)

/-- Lexicographic order on the 4-tuple of counters, the comparison Python uses
for tuples in `list.sort`. -/
def keyLe (a b : Nat × Nat × Nat × Nat) : Prop :=
  a.1 < b.1 ∨ a.1 = b.1 ∧ (a.2.1 < b.2.1 ∨ a.2.1 = b.2.1 ∧
    (a.2.2.1 < b.2.2.1 ∨ a.2.2.1 = b.2.2.1 ∧ a.2.2.2 ≤ b.2.2.2))

instance : DecidableRel keyLe := fun a b => by
  unfold keyLe; infer_instance

/-- Candidate comparison used by the stable sort of line 410. -/
def candLe (a b : Cand) : Prop := keyLe a.key b.key

instance : DecidableRel candLe := fun a b => by
  unfold candLe; infer_instance

instance : IsTrans Cand candLe :=
  ⟨by intro a b c hab hbc; unfold candLe keyLe at *; omega⟩

instance : IsTotal Cand candLe :=
  ⟨by intro a b; unfold candLe keyLe; omega⟩

/-- The in-memory state of one `random_least_voted_unseen_battles` call after
the four cursors have been folded into their dictionaries (lines 351-388):
the prompt dictionary, the per-prompt output lists, and the four
`defaultdict(int)` counter maps. -/
structure SelState where
  promptTable : List (String × Prompt)
  outputs : List (String × List (String × String))
  sessionVoted : String × String → Nat
  sysCount : String → Nat
  promptSeenBySession : String → Nat
  promptCount : String → Nat

/-- `defaultdict(int)` lookup over an association list: absent key means 0. -/
def lookup0 {κ : Type} [DecidableEq κ] (l : List (κ × Nat)) (k : κ) : Nat :=
  (((l.find? fun e => e.1 = k).map fun e => e.2).getD 0)

/-- Dictionary lookup for `prompt_id_to_prompt[prompt_id]` (line 424); the
default is never reached because every scanned prompt id is a key, and it keeps
the same id so that prompt identity is preserved regardless. -/
def lookupPrompt (l : List (String × Prompt)) (pid : String) : Prompt :=
  (((l.find? fun e => e.1 = pid).map fun e => e.2).getD { id := pid })

/-- Dictionary lookup for `prompt_id_to_outputs[prompt_id]` (line 418). -/
def lookupOutputs (l : List (String × List (String × String))) (pid : String) :
    List (String × String) :=
  (((l.find? fun e => e.1 = pid).map fun e => e.2).getD [])

/-- Point update of a counter map: the `+= 1` of a `defaultdict(int)`. -/
def bumpF {κ : Type} [DecidableEq κ] (f : κ → Nat) (k : κ) : κ → Nat :=
  fun x => if x = k then f x + 1 else f x

/-- Lines 384-388: every entry of `ignored_output_ids` is folded into the four
counter maps as one additional simulated vote. -/
def mergeIgnored (st : SelState) (ignored : List (String × String)) : SelState :=
  ignored.foldl
    (fun s pr =>
      { s with
        sessionVoted := bumpF s.sessionVoted pr
        sysCount := bumpF s.sysCount pr.2
        promptSeenBySession := bumpF s.promptSeenBySession pr.1
        promptCount := bumpF s.promptCount pr.1 })
    st

/-- Lines 374-380: `session_voted_prompts` is derived from the session output
vote dictionary by summing the counts per prompt and halving (floor division by
2 fixes the double counting, since each battle has two outputs). -/
def derivePromptSeen (sessionVotedL : List ((String × String) × Nat)) (pid : String) : Nat :=
  ((sessionVotedL.filter fun e => e.1.1 = pid).foldl (fun acc e => acc + e.2) 0) / 2

/-- Lines 351-388 of `random_least_voted_unseen_battles`: build the request
state from the four cursor result lists and merge the ignored output ids. -/
def mkSelState (promptTable : List (String × Prompt))
    (outputs : List (String × List (String × String)))
    (sysCountL : List (String × Nat)) (promptCountL : List (String × Nat))
    (sessionVotedL : List ((String × String) × Nat))
    (ignored : List (String × String)) : SelState :=
  mergeIgnored
    { promptTable := promptTable
      outputs := outputs
      sessionVoted := lookup0 sessionVotedL
      sysCount := lookup0 sysCountL
      promptSeenBySession := derivePromptSeen sessionVotedL
      promptCount := lookup0 promptCountL }
    ignored

/-- Lines 391-403: the candidate list, one entry per output of the task, with
the current counter values. -/
def buildCandidates (st : SelState) : List Cand :=
  st.outputs.flatMap fun pr =>
    pr.2.map fun out =>
      { sessionSeen := st.sessionVoted (pr.1, out.1)
        sysVotes := st.sysCount out.1
        promptSeen := st.promptSeenBySession pr.1
        promptVotes := st.promptCount pr.1
        pid := pr.1
        sid := out.1
        text := out.2 }

/-- The conjunct `(prompt_id, system_id)` in the partner filter of line 419:
in Python a non-empty tuple is always truthy, so this test is constantly true
(it looks like the remnant of a deleted membership check). -/
def truthyPair (_pr : String × String) : Bool := true

/-- The partner list comprehension of lines 416-420: same prompt, different
system, the vacuously true tuple test, and different text; each partner carries
its session-seen count, system id and text. -/
def partnersOf (st : SelState) (c : Cand) : List (Nat × String × String) :=
  (lookupOutputs st.outputs c.pid).filterMap fun out =>
    if out.1 ≠ c.sid ∧ truthyPair (c.pid, out.1) ∧ out.2 ≠ c.text then
      some (st.sessionVoted (c.pid, out.1), out.1, out.2)
    else none

/-- Python `min(l, key=lambda p: p[0])` on a list: the first element with the
minimal first component, `none` on the empty list. -/
def minByFst : List (Nat × String × String) → Option (Nat × String × String)
  | [] => none
  | x :: xs => some (xs.foldl (fun acc y => if y.1 < acc.1 then y else acc) x)

/-- One emitted battle together with the internally chosen anchor output A and
partner B (the locals `system_id_a` / `system_id_b` of lines 414-426, before
the presentation swap). -/
structure Pick where
  anchor : Cand
  partner : Nat × String × String
  battle : Battle
deriving DecidableEq, Repr, Inhabited

/-- Lines 428-438: after a yield the session-seen, system, prompt-seen and
prompt counters of both sides are incremented (the simulated vote). -/
def simulateVote (st : SelState) (c : Cand) (sidB : String) : SelState :=
  { st with
    sessionVoted := bumpF (bumpF st.sessionVoted (c.pid, c.sid)) (c.pid, sidB)
    sysCount := bumpF (bumpF st.sysCount c.sid) sidB
    promptSeenBySession := bumpF st.promptSeenBySession c.pid
    promptCount := bumpF st.promptCount c.pid }

/-- The inner `while candidate_output_queue` scan of lines 413-442: pop anchors
until one has a non-empty partner list, then shuffle the partners, take the
minimum by session-seen count, build the battle and apply the simulated vote.
Returns `none` when the queue empties with no valid pick.  (The `none` fallback
of the inner `match` is unreachable for a permutation shuffle on a non-empty
list.) -/
def scanQueue (st : SelState) (pShuffle : List (Nat × String × String) → List (Nat × String × String))
    (swapAB : Bool) : List Cand → Option (Pick × SelState)
  | [] => none
  | c :: rest =>
    if partnersOf st c = [] then scanQueue st pShuffle swapAB rest
    else
      match minByFst (pShuffle (partnersOf st c)) with
      | none => scanQueue st pShuffle swapAB rest
      | some pb =>
        let prompt := lookupPrompt st.promptTable c.pid
        let battle := createBattleWithPrompt prompt c.sid c.text pb.2.1 pb.2.2 swapAB
        some (⟨c, pb, battle⟩, simulateVote st c pb.2.1)

/-- The random choices one call can make: per outer iteration a candidate
shuffle, a partner shuffle and the 50% a/b presentation swap. -/
structure Oracle where
  candShuffle : Nat → List Cand → List Cand
  partShuffle : Nat → List (Nat × String × String) → List (Nat × String × String)
  swapAB : Nat → Bool

/-- An oracle is valid when its shuffles permute their input, which is exactly
the set of behaviours `random.shuffle` can exhibit. -/
def Oracle.Valid (o : Oracle) : Prop :=
  (∀ k l, (o.candShuffle k l).Perm l) ∧ (∀ k l, (o.partShuffle k l).Perm l)

/-- The degenerate oracle: identity shuffles, never swap.  One realizable
outcome of the random generator. -/
def idOracle : Oracle :=
  { candShuffle := fun _ l => l
    partShuffle := fun _ l => l
    swapAB := fun _ => false }

/-- The outer `while batch_size > 0` loop of lines 390-442 of
`random_least_voted_unseen_battles`, with explicit fuel.  Each iteration
shuffles and stably sorts the candidate list and runs the inner scan; a
successful scan emits a pick and decrements the remaining batch size, a failed
scan leaves the batch size and the state untouched and the loop retries.
`none` means the fuel ran out while the Python loop would still be running. -/
def runLoop (o : Oracle) : Nat → Nat → SelState → Nat → Option (List Pick)
  | _, 0, _, _ => some []
  | 0, _ + 1, _, _ => none
  | fuel + 1, b + 1, st, k =>
    let queue := List.insertionSort candLe (o.candShuffle k (buildCandidates st))
    match scanQueue st (o.partShuffle k) (o.swapAB k) queue with
    | some (pick, st1) => (runLoop o fuel b st1 (k + 1)).map fun picks => pick :: picks
    | none => runLoop o fuel (b + 1) st (k + 1)

/-- `random_least_voted_unseen_battles` as seen by the caller: the emitted
battles in emission order (when the loop finishes within the fuel). -/
def selectBattles (o : Oracle) (st : SelState) (batchSize fuel : Nat) : Option (List Battle) :=
  (runLoop o fuel batchSize st 0).map fun picks => picks.map fun p => p.battle

/-- One row of the `votes` table
(`prompt_id, system_id_a, system_id_b, session_id, vote, date, is_offensive_a,
is_offensive_b`). -/
structure VoteRow where
  prompt_id : String
  system_id_a : String
  system_id_b : String
  session_id : String
  vote : String
  date : Nat
  is_offensive_a : Bool
  is_offensive_b : Bool
deriving DecidableEq, Repr, Inhabited

/-- One row of the `prompts` table
(`prompt_id, task, phase_id` plus the content columns). -/
structure PromptRow where
  prompt_id : String
  task : String
  phase_id : Nat
  word1 : Option String := none
  word2 : Option String := none
  headline : Option String := none
  url : Option String := none
  prompt : Option String := none
deriving DecidableEq, Repr, Inhabited

/-- `votes NATURAL JOIN prompts ... WHERE task = :task AND phase_id = :phase_id`:
a vote row survives the join and filter when some prompts row shares its
`prompt_id` and carries the requested task and phase. -/
def votePromptMatches (prompts : List PromptRow) (task : String) (phase : Nat)
    (v : VoteRow) : Bool :=
  prompts.any fun p => p.prompt_id = v.prompt_id ∧ p.task = task ∧ p.phase_id = phase

/-- `STATEMENT_SESSION_OUTPUT_VOTE_COUNTS` (lines 185-196 of `database.py`):
the two inner selects produce the `(prompt_id, system_id)` pairs of either side
of the session votes; `UNION` (not `UNION ALL`) removes duplicates; the outer
`GROUP BY` counts the occurrences of each pair in the deduplicated union. -/
def sessionOutputVoteCounts (votes : List VoteRow) (prompts : List PromptRow)
    (session_id task : String) (phase : Nat) : List ((String × String) × Nat) :=
  let filtered := votes.filter fun v =>
    v.session_id = session_id && votePromptMatches prompts task phase v
  let unionRows :=
    ((filtered.map fun v => (v.prompt_id, v.system_id_a)) ++
      (filtered.map fun v => (v.prompt_id, v.system_id_b))).dedup
  unionRows.map fun key => (key, unionRows.countP fun e => e = key)

/-- The value the specification ascribes to `sessionSeenOutputs`: the number of
prior votes (any vote type) by the session that touch the `(promptID, systemID)`
output on either side of the battle. -/
def specSessionSeenCount (votes : List VoteRow) (prompts : List PromptRow)
    (session_id task : String) (phase : Nat) (key : String × String) : Nat :=
  (votes.filter fun v =>
    v.session_id = session_id && votePromptMatches prompts task phase v &&
      v.prompt_id = key.1 && (v.system_id_a = key.2 || v.system_id_b = key.2)).length

/-- The primary key of a `votes` row:
`(prompt_id, system_id_a, system_id_b, session_id)`. -/
def voteKey (r : VoteRow) : String × String × String × String :=
  (r.prompt_id, r.system_id_a, r.system_id_b, r.session_id)

/-- `add_vote` (lines 509-532 of `database.py`), executing `STATEMENT_ADD_VOTE`:
`INSERT ... ON DUPLICATE KEY UPDATE prompt_id = prompt_id` appends the row when
its key is fresh and leaves the table untouched when a row with the same key
exists (the `UPDATE` clause rewrites a key column to itself, a no-op).
Modelled from the spec: the uniqueness constraint on
`(prompt_id, system_id_a, system_id_b, session_id)` lives in the database
schema, which is not in the repository sources; spec section 6 states it. -/
def add_vote (table : List VoteRow) (r : VoteRow) : List VoteRow :=
  if table.any fun x => voteKey x = voteKey r then table else table ++ [r]

/-- One row of the `outputs` table (`prompt_id, system_id, text`). -/
structure OutputRow where
  prompt_id : String
  system_id : String
  text : String
deriving DecidableEq, Repr, Inhabited

/-- The `Prompt` object built from a prompts-table row (as in
`_battle_row_to_object` and `random_battles`). -/
def promptOfRow (p : PromptRow) : Prompt :=
  { id := p.prompt_id, word1 := p.word1, word2 := p.word2, headline := p.headline,
    url := p.url, prompt := p.prompt }

/-- The join of `STATEMENT_RANDOM_BATTLES` (lines 198-224 of `database.py`)
before `ORDER BY RAND() LIMIT`: all `(prompt, output_a, output_b)` rows with
the same prompt, a different system on each side, and the requested task and
phase. -/
def battlePairRows (prompts : List PromptRow) (outputs : List OutputRow)
    (task : String) (phase : Nat) : List (PromptRow × OutputRow × OutputRow) :=
  prompts.flatMap fun p =>
    if p.task = task ∧ p.phase_id = phase then
      outputs.flatMap fun a =>
        if a.prompt_id = p.prompt_id then
          outputs.filterMap fun b =>
            if b.prompt_id = a.prompt_id ∧ b.system_id ≠ a.system_id then
              some (p, a, b)
            else none
        else []
    else []

/-- Map with a running position index (used to hand each emitted row its own
independent presentation-swap coin). -/
def mapWithIndex {α β : Type} (f : Nat → α → β) : Nat → List α → List β
  | _, [] => []
  | i, x :: xs => f i x :: mapWithIndex f (i + 1) xs

/-- `random_battles` (lines 445-455 of `database.py`): shuffle the join rows
(`ORDER BY RAND()`, modelled by `σ`), keep `limit` of them (`LIMIT`), and build
each battle with the per-row presentation swap. -/
def random_battles (σ : List (PromptRow × OutputRow × OutputRow) → List (PromptRow × OutputRow × OutputRow))
    (swapO : Nat → Bool) (prompts : List PromptRow) (outputs : List OutputRow)
    (task : String) (phase : Nat) (limit : Nat) : List Battle :=
  mapWithIndex
    (fun i row =>
      createBattleWithPrompt (promptOfRow row.1) row.2.1.system_id row.2.1.text
        row.2.2.system_id row.2.2.text (swapO i))
    0 ((σ (battlePairRows prompts outputs task phase)).take limit)

/-- `_get_battle_objects` (lines 250-268 of `__main__.py`): emit the selector
battles, count them, and when the count falls short of `batch_size` pad with
`random_battles` asked for exactly the shortfall. -/
def getBattleObjects (selectorBattles : List Battle)
    (σ : List (PromptRow × OutputRow × OutputRow) → List (PromptRow × OutputRow × OutputRow))
    (swapO : Nat → Bool) (prompts : List PromptRow) (outputs : List OutputRow)
    (task : String) (phase : Nat) (batch_size : Nat) : List Battle :=
  let numMissing := batch_size - selectorBattles.length
  selectorBattles ++
    (if 0 < numMissing then
      random_battles σ swapO prompts outputs task phase numMissing
    else [])

/-- Line 278 of `__main__.py`:
`task = cast(Task, task if task in TASK_CHOICES else "a-en")` — an unknown task
string is silently replaced by the default task, it is never rejected. -/
def battlesRouteTask (task : String) : String :=
  if TASK_CHOICES.contains task then task else "a-en"

/-- Line 280 of `__main__.py`:
`batch_size = max(min(batch_size, REQUEST_BATTLE_BATCH_SIZE), 1)` with
`REQUEST_BATTLE_BATCH_SIZE = 16`. -/
def clampBatchSize (batch_size : Int) : Int :=
  max (min batch_size 16) 1

/-- The punctuation set of the `elif char in "!?,;:"` branch of
`_perturb_text`. -/
def isOtherPunct (c : Char) : Bool :=
  c = '!' ∨ c = '?' ∨ c = ',' ∨ c = ';' ∨ c = ':'

/-- The character loop of `_perturb_text` (lines 145-201 of `__main__.py`).
The three random tests (`position_hash < remove_space_rate`,
`position_hash < remove_space_rate * 0.5`, `position_hash < double_space_rate`)
depend only on the position `i` within one call, so they are modelled by the
arbitrary boolean functions `f`, `g`, `h` of the position:
* a period followed by a space keeps the period and drops the space when `f i`;
* another punctuation mark followed by a space drops the space when `g i`;
* a space is doubled when `h i`;
* every other character is copied unchanged. -/
def perturbGo (f g h : Nat → Bool) : Nat → List Char → List Char
  | _, [] => []
  | i, c :: rest =>
    if c = '.' ∧ rest.head? = some ' ' then
      (if f i then '.' :: perturbGo f g h (i + 2) rest.tail
       else '.' :: perturbGo f g h (i + 1) rest)
    else if isOtherPunct c ∧ rest.head? = some ' ' then
      (if g i then c :: perturbGo f g h (i + 2) rest.tail
       else c :: perturbGo f g h (i + 1) rest)
    else if c = ' ' then
      (if h i then ' ' :: ' ' :: perturbGo f g h (i + 1) rest
       else ' ' :: perturbGo f g h (i + 1) rest)
    else c :: perturbGo f g h (i + 1) rest
termination_by _ l => l.length
decreasing_by
  all_goals simp [List.length_tail]
  all_goals omega

/-- `_perturb_text` on a whole string (the empty string returns itself, which
coincides with running the loop on no characters). -/
def perturbText (f g h : Nat → Bool) (s : String) : String :=
  ⟨perturbGo f g h 0 s.data⟩

/-- Delete every space character (the comparison operation of the claim about
`_perturb_text`). -/
def eraseSpaces (l : List Char) : List Char :=
  l.filter fun c => c ≠ ' '

/-- The prompt-set mismatch failure of `ingest_submission`
(lines 147-153 of `submission.py`): it carries the missing ids
(reference minus submitted) and the extra ids (submitted minus reference). -/
structure PromptSetMismatchError where
  missing : Finset String
  extra : Finset String
deriving DecidableEq

/-- Lines 136-144 of `submission.py`: the reference prompt-id set for a task,
read from the `prompts` table for the given phase. -/
def referencePromptIds (prompts : List PromptRow) (phase : Nat) (task : String) :
    Finset String :=
  ((prompts.filter fun p => p.task = task ∧ p.phase_id = phase).map
    fun p => p.prompt_id).toFinset

/-- The per-task loop of `ingest_submission` (lines 125-170 of
`submission.py`): for each task file compare the submitted prompt-id set with
the reference set; on the first mismatch fail with the missing/extra sets; on
success accumulate the output rows keyed by the submission system id. -/
def ingestTasks (prompts : List PromptRow) (phase : Nat) (system_id : String) :
    List (String × List (String × String)) → List OutputRow →
      Except PromptSetMismatchError (List OutputRow)
  | [], acc => .ok acc
  | (task, rows) :: rest, acc =>
    let submitted := (rows.map fun r => r.1).toFinset
    let reference := referencePromptIds prompts phase task
    if submitted = reference then
      ingestTasks prompts phase system_id rest
        (acc ++ rows.map fun r => { prompt_id := r.1, system_id := system_id, text := r.2 })
    else
      .error { missing := reference \ submitted, extra := submitted \ reference }

/-- `ingest_submission` (lines 97-172 of `submission.py`) seen at the level of
the `outputs` table: the whole call runs inside one transaction
(`engine.begin()`), so the new table exists only on success; on a mismatch the
exception aborts the transaction and the stored table is unchanged, which the
`Except.error` result models. -/
def ingest_submission (table : List OutputRow) (prompts : List PromptRow)
    (phase : Nat) (system_id : String)
    (taskFiles : List (String × List (String × String))) :
    Except PromptSetMismatchError (List OutputRow) :=
  (ingestTasks prompts phase system_id taskFiles []).map fun newRows => table ++ newRows

/-- A word-pair prompt for task `a-en` (the Python `Prompt.__post_init__`
closed-variant check admits it). -/
def promptP1 : Prompt :=
  { id := "en_00001", word1 := some "w1", word2 := some "w2" }

/-- A second word-pair prompt for task `a-en`. -/
def promptP2 : Prompt :=
  { id := "en_00002", word1 := some "w3", word2 := some "w4" }

/-- Request state for a task whose outputs all come from one single system:
one prompt, one output, no votes, no ignore-list. -/
def stOneSystem : SelState :=
  mkSelState [("en_00001", promptP1)] [("en_00001", [("S1", "x")])] [] [] [] []

/-- The ignore-list that covers every output of the task of `stAllIgnored`. -/
def ignoredAll : List (String × String) :=
  [("en_00001", "S1"), ("en_00001", "S2")]

/-- Request state where the task has exactly two outputs (two systems, one
prompt, distinct texts), no recorded votes, and both outputs appear in the
ignore-list. -/
def stAllIgnored : SelState :=
  mkSelState [("en_00001", promptP1)] [("en_00001", [("S1", "x"), ("S2", "y")])]
    [] [] [] ignoredAll

/-- The spec scenario for the first-anchor claim: three systems S1, S2, S3 with
outputs (distinct texts) for the two prompts, no non-skip votes anywhere, and
the session has voted output `(en_00001, S1)` once (a skip vote whose partner
system has no outputs for the task, so only that output of the task is
session-seen). Empty ignore-list. -/
def stScenario : SelState :=
  mkSelState [("en_00001", promptP1), ("en_00002", promptP2)]
    [("en_00001", [("S1", "t11"), ("S2", "t12"), ("S3", "t13")]),
     ("en_00002", [("S1", "t21"), ("S2", "t22"), ("S3", "t23")])]
    [] []
    [(("en_00001", "S1"), 1), (("en_00001", "SF"), 1)]
    []

/-! ## Shared helper lemmas -/

/-- The identity oracle is a realizable outcome of the random generator. -/
theorem idOracle_valid : idOracle.Valid :=
  ⟨fun _ l => List.Perm.refl l, fun _ l => List.Perm.refl l⟩

/-- The single candidate of the one-system state. -/
def candOneSystem : Cand :=
  { sessionSeen := 0, sysVotes := 0, promptSeen := 0, promptVotes := 0,
    pid := "en_00001", sid := "S1", text := "x" }

/-- In the one-system state the inner scan always fails: the only candidate
has no partner. -/
theorem scanQueue_oneSystem (ps : List (Nat × String × String) → List (Nat × String × String))
    (sw : Bool) : scanQueue stOneSystem ps sw [candOneSystem] = none := by
  have hpart : partnersOf stOneSystem candOneSystem = [] := by decide
  simp [scanQueue, hpart]

/-- In the one-system state the outer loop makes no progress: for every fuel
and iteration index it runs out of fuel with the batch size still positive. -/
theorem runLoop_oneSystem (o : Oracle) (ho : o.Valid) :
    ∀ fuel b k, runLoop o fuel (b + 1) stOneSystem k = none := by
  intro fuel
  induction fuel with
  | zero => intro b k; rfl
  | succ n ih =>
    intro b k
    have hbuild : buildCandidates stOneSystem = [candOneSystem] := by decide
    have hshuf : o.candShuffle k (buildCandidates stOneSystem) = [candOneSystem] := by
      rw [hbuild]
      exact List.perm_singleton.mp (ho.1 k [candOneSystem])
    have hsort : List.insertionSort candLe (o.candShuffle k (buildCandidates stOneSystem)) =
        [candOneSystem] := by
      rw [hshuf]; rfl
    simp only [runLoop, hsort, scanQueue_oneSystem]
    exact ih b (k + 1)

/-! ## C1 -/

/-- C1: the claim says a `SelectBattles` call always terminates, stopping early
with a partial batch when no valid pick exists.  The code disagrees: when the
task has outputs from fewer than 2 systems (state `stOneSystem`) and the batch
size is positive, the outer `while batch_size > 0` loop of
`random_least_voted_unseen_battles` never yields and never decrements
`batch_size`, so the loop re-scans the same queue forever.  In the fuel model:
for every realizable shuffle behaviour and every fuel amount the loop is still
running when the fuel ends. -/
theorem c1_selector_diverges_on_single_system (o : Oracle) (ho : o.Valid)
    (b fuel : Nat) : selectBattles o stOneSystem (b + 1) fuel = none := by
  simp [selectBattles, runLoop_oneSystem o ho fuel b 0]

/-- Witness for C1 at the identity oracle, batch size 1 and fuel 5. -/
theorem c1_selector_diverges_on_single_system_witness :
    selectBattles idOracle stOneSystem 1 5 = none :=
  c1_selector_diverges_on_single_system idOracle idOracle_valid 0 5

/-! ## C2 -/

/-- The merge loop of lines 384-388 adds exactly one simulated vote per
ignore-list occurrence to each of the four counter maps. -/
theorem mergeIgnored_counts :
    ∀ (ignored : List (String × String)) (st : SelState) (pr : String × String)
      (sid pid : String),
    (mergeIgnored st ignored).sessionVoted pr =
      st.sessionVoted pr + ignored.countP (fun e => e = pr) ∧
    (mergeIgnored st ignored).sysCount sid =
      st.sysCount sid + ignored.countP (fun e => e.2 = sid) ∧
    (mergeIgnored st ignored).promptSeenBySession pid =
      st.promptSeenBySession pid + ignored.countP (fun e => e.1 = pid) ∧
    (mergeIgnored st ignored).promptCount pid =
      st.promptCount pid + ignored.countP (fun e => e.1 = pid) := by
  intro ignored
  induction ignored with
  | nil => intro st pr sid pid; simp [mergeIgnored]
  | cons x xs ih =>
    intro st pr sid pid
    have hcons : mergeIgnored st (x :: xs) =
        mergeIgnored
          { st with
            sessionVoted := bumpF st.sessionVoted x
            sysCount := bumpF st.sysCount x.2
            promptSeenBySession := bumpF st.promptSeenBySession x.1
            promptCount := bumpF st.promptCount x.1 } xs := rfl
    obtain ⟨ih1, ih2, ih3, ih4⟩ := ih
      { st with
        sessionVoted := bumpF st.sessionVoted x
        sysCount := bumpF st.sysCount x.2
        promptSeenBySession := bumpF st.promptSeenBySession x.1
        promptCount := bumpF st.promptCount x.1 } pr sid pid
    refine ⟨?_, ?_, ?_, ?_⟩
    · rw [hcons, ih1]
      simp only [bumpF, List.countP_cons]
      by_cases hx : pr = x
      · subst hx; simp; omega
      · have hx2 : ¬(x = pr) := fun hh => hx hh.symm
        simp [hx, hx2]
    · rw [hcons, ih2]
      simp only [bumpF, List.countP_cons]
      by_cases hx : sid = x.2
      · subst hx; simp; omega
      · have hx2 : ¬(x.2 = sid) := fun hh => hx hh.symm
        simp [hx, hx2]
    · rw [hcons, ih3]
      simp only [bumpF, List.countP_cons]
      by_cases hx : pid = x.1
      · subst hx; simp; omega
      · have hx2 : ¬(x.1 = pid) := fun hh => hx hh.symm
        simp [hx, hx2]
    · rw [hcons, ih4]
      simp only [bumpF, List.countP_cons]
      by_cases hx : pid = x.1
      · subst hx; simp; omega
      · have hx2 : ¬(x.1 = pid) := fun hh => hx hh.symm
        simp [hx, hx2]

/-- C2 counterexample: in state `stAllIgnored` every output of the task is in
the ignore-list, yet the call returns a battle whose two sides are exactly
those ignored outputs — so an ignored output IS selected as a side of a battle
of the same call, refuting the claim at this concrete input. -/
theorem c2_counterexample :
    selectBattles idOracle stAllIgnored 1 1 =
      some [{ output_a := { prompt := promptP1, system := { id := "S1" }, text := "x" },
              output_b := { prompt := promptP1, system := { id := "S2" }, text := "y" } }] ∧
    ("en_00001", "S1") ∈ ignoredAll ∧ ("en_00001", "S2") ∈ ignoredAll := by
  refine ⟨by decide, by decide, by decide⟩

/-- C2 amended: outputs named in `ignoredOutputIDs` are not excluded from
selection; instead each occurrence is treated as one additional simulated
session vote — the session-seen count of the output, the vote count of its
system and the two counters of its prompt are each incremented before
selection — which de-prioritizes the output in the anchor sort and the partner
choice but still allows it to be selected (for example when every output of
the task is ignored). -/
theorem c2_ignored_deprioritized_not_excluded (promptTable : List (String × Prompt))
    (outputs : List (String × List (String × String)))
    (sysCountL promptCountL : List (String × Nat))
    (sessionVotedL : List ((String × String) × Nat))
    (ignored : List (String × String)) (pr : String × String) (sid pid : String) :
    (mkSelState promptTable outputs sysCountL promptCountL sessionVotedL ignored).sessionVoted pr =
      lookup0 sessionVotedL pr + ignored.countP (fun e => e = pr) ∧
    (mkSelState promptTable outputs sysCountL promptCountL sessionVotedL ignored).sysCount sid =
      lookup0 sysCountL sid + ignored.countP (fun e => e.2 = sid) ∧
    (mkSelState promptTable outputs sysCountL promptCountL sessionVotedL ignored).promptSeenBySession pid =
      derivePromptSeen sessionVotedL pid + ignored.countP (fun e => e.1 = pid) ∧
    (mkSelState promptTable outputs sysCountL promptCountL sessionVotedL ignored).promptCount pid =
      lookup0 promptCountL pid + ignored.countP (fun e => e.1 = pid) := by
  simpa [mkSelState] using
    mergeIgnored_counts ignored
      { promptTable := promptTable
        outputs := outputs
        sessionVoted := lookup0 sessionVotedL
        sysCount := lookup0 sysCountL
        promptSeenBySession := derivePromptSeen sessionVotedL
        promptCount := lookup0 promptCountL } pr sid pid

/-! ## C3 -/

/-- C3: submitting a second vote with the same
`(sessionID, promptID, systemIDA, systemIDB)` key and a different vote value
is a silent no-op: the table is unchanged and exactly one row with that key is
stored, carrying the first vote value. -/
theorem c3_add_vote_first_wins (t : List VoteRow) (r1 r2 : VoteRow)
    (hkey : voteKey r2 = voteKey r1) (_hdiff : r2.vote ≠ r1.vote)
    (hfresh : ∀ x ∈ t, voteKey x ≠ voteKey r1) :
    add_vote (add_vote t r1) r2 = add_vote t r1 ∧
    (add_vote (add_vote t r1) r2).filter (fun x => voteKey x = voteKey r1) = [r1] := by
  have h1 : add_vote t r1 = t ++ [r1] := by
    unfold add_vote
    rw [if_neg]
    intro hany
    rw [List.any_eq_true] at hany
    obtain ⟨x, hx, hxk⟩ := hany
    exact hfresh x hx (by simpa using hxk)
  have h2 : add_vote (t ++ [r1]) r2 = t ++ [r1] := by
    unfold add_vote
    rw [if_pos]
    rw [List.any_eq_true]
    exact ⟨r1, by simp, by simp [hkey]⟩
  refine ⟨by rw [h1, h2], ?_⟩
  rw [h1, h2, List.filter_append]
  have ht : t.filter (fun x => voteKey x = voteKey r1) = [] := by
    rw [List.filter_eq_nil_iff]
    intro x hx
    simpa using hfresh x hx
  rw [ht]
  simp

/-- First vote row of the C3 scenario: session X votes `a`. -/
def voteRowA : VoteRow :=
  { prompt_id := "en_00001", system_id_a := "S1", system_id_b := "S2",
    session_id := "X", vote := "a", date := 0, is_offensive_a := false, is_offensive_b := false }

/-- Second vote row of the C3 scenario: same key, vote `b`. -/
def voteRowB : VoteRow :=
  { prompt_id := "en_00001", system_id_a := "S1", system_id_b := "S2",
    session_id := "X", vote := "b", date := 1, is_offensive_a := false, is_offensive_b := false }

/-- Witness for C3: empty table, two votes on the same key with values `a`
then `b`; the stored row keeps value `a`. -/
theorem c3_add_vote_first_wins_witness :
    add_vote (add_vote [] voteRowA) voteRowB = add_vote [] voteRowA ∧
    (add_vote (add_vote [] voteRowA) voteRowB).filter
        (fun x => voteKey x = voteKey voteRowA) = [voteRowA] :=
  c3_add_vote_first_wins [] voteRowA voteRowB (by decide) (by decide)
    (by intro x hx; cases hx)

/-! ## C4 -/

/-- Python `min` folds to an element of the starting accumulator or the list. -/
theorem foldl_min_choice :
    ∀ (as : List (Nat × String × String)) (acc : Nat × String × String),
      (as.foldl (fun a y => if y.1 < a.1 then y else a) acc) = acc ∨
      (as.foldl (fun a y => if y.1 < a.1 then y else a) acc) ∈ as := by
  intro as
  induction as with
  | nil => intro acc; left; rfl
  | cons y ys ih =>
    intro acc
    rw [List.foldl_cons]
    rcases ih (if y.1 < acc.1 then y else acc) with h | h
    · rw [h]
      by_cases hy : y.1 < acc.1
      · right; simp [hy]
      · left; simp [hy]
    · right; exact List.mem_cons_of_mem y h

/-- The Python `min` result is a member of the list. -/
theorem minByFst_mem {l : List (Nat × String × String)} {x : Nat × String × String}
    (h : minByFst l = some x) : x ∈ l := by
  cases l with
  | nil => simp [minByFst] at h
  | cons a as =>
    simp only [minByFst, Option.some.injEq] at h
    rcases foldl_min_choice as a with h2 | h2
    · rw [h2] at h; rw [← h]; exact List.mem_cons_self a as
    · rw [← h]; exact List.mem_cons_of_mem a h2

/-- `min` on a non-empty list succeeds. -/
theorem minByFst_ne_none {l : List (Nat × String × String)} (h : l ≠ []) :
    ∃ x, minByFst l = some x := by
  cases l with
  | nil => exact absurd rfl h
  | cons a as => exact ⟨_, rfl⟩

/-- Every partner candidate has a system different from the anchor system and
a text different from the anchor text (the filter of lines 416-420). -/
theorem partnersOf_mem_prop {st : SelState} {c : Cand} {pb : Nat × String × String}
    (h : pb ∈ partnersOf st c) : pb.2.1 ≠ c.sid ∧ pb.2.2 ≠ c.text := by
  unfold partnersOf at h
  rw [List.mem_filterMap] at h
  obtain ⟨out, hout, hsome⟩ := h
  split at hsome
  · rename_i hcond
    simp only [Option.some.injEq] at hsome
    rw [← hsome]
    exact ⟨hcond.1, hcond.2.2⟩
  · cases hsome

/-- The constructed battle keeps the shared prompt on both sides and the two
distinct systems on opposite sides, whichever way the presentation swap goes. -/
theorem createBattleWithPrompt_inv (p : Prompt) (sa ta sb tb : String) (sw : Bool)
    (hne : sb ≠ sa) :
    (createBattleWithPrompt p sa ta sb tb sw).output_a.prompt.id =
      (createBattleWithPrompt p sa ta sb tb sw).output_b.prompt.id ∧
    (createBattleWithPrompt p sa ta sb tb sw).output_a.system.id ≠
      (createBattleWithPrompt p sa ta sb tb sw).output_b.system.id := by
  cases sw with
  | false => exact ⟨rfl, fun hh => hne hh.symm⟩
  | true => exact ⟨rfl, fun hh => hne hh⟩

/-- Any pick emitted by the inner scan satisfies the battle invariant. -/
theorem scanQueue_some_inv {st : SelState}
    {ps : List (Nat × String × String) → List (Nat × String × String)} {sw : Bool}
    (hps : ∀ l, (ps l).Perm l) :
    ∀ (q : List Cand) (pick : Pick) (st1 : SelState),
      scanQueue st ps sw q = some (pick, st1) →
      pick.battle.output_a.prompt.id = pick.battle.output_b.prompt.id ∧
      pick.battle.output_a.system.id ≠ pick.battle.output_b.system.id := by
  intro q
  induction q with
  | nil => intro pick st1 h; simp [scanQueue] at h
  | cons c rest ih =>
    intro pick st1 h
    simp only [scanQueue] at h
    split at h
    · exact ih pick st1 h
    · split at h
      · exact ih pick st1 h
      · rename_i pb heq
        simp only [Option.some.injEq, Prod.mk.injEq] at h
        obtain ⟨hpick, _⟩ := h
        have hmem : pb ∈ partnersOf st c :=
          (hps (partnersOf st c)).mem_iff.mp (minByFst_mem heq)
        have hne : pb.2.1 ≠ c.sid := (partnersOf_mem_prop hmem).1
        rw [← hpick]
        exact createBattleWithPrompt_inv _ c.sid c.text pb.2.1 pb.2.2 sw hne

/-- Every pick of a finished selector run satisfies the battle invariant. -/
theorem runLoop_some_inv (o : Oracle) (ho : o.Valid) :
    ∀ (fuel b : Nat) (st : SelState) (k : Nat) (picks : List Pick),
      runLoop o fuel b st k = some picks →
      ∀ p ∈ picks,
        p.battle.output_a.prompt.id = p.battle.output_b.prompt.id ∧
        p.battle.output_a.system.id ≠ p.battle.output_b.system.id := by
  intro fuel
  induction fuel with
  | zero =>
    intro b st k picks h p hp
    cases b with
    | zero =>
      simp only [runLoop, Option.some.injEq] at h
      rw [← h] at hp
      cases hp
    | succ b1 => simp [runLoop] at h
  | succ n ih =>
    intro b st k picks h p hp
    cases b with
    | zero =>
      simp only [runLoop, Option.some.injEq] at h
      rw [← h] at hp
      cases hp
    | succ b1 =>
      simp only [runLoop] at h
      split at h
      · rename_i pick1 st1 heq
        rw [Option.map_eq_some'] at h
        obtain ⟨picks2, h2, hpicks⟩ := h
        rw [← hpicks] at hp
        rcases List.mem_cons.mp hp with hpp | hpp
        · rw [hpp]
          exact scanQueue_some_inv (ho.2 k) _ pick1 st1 heq
        · exact ih b1 st1 (k + 1) picks2 h2 p hpp
      · exact ih (b1 + 1) st (k + 1) picks h p hp

/-- Every join row of `STATEMENT_RANDOM_BATTLES` pairs two outputs of the same
prompt from two different systems. -/
theorem battlePairRows_mem {prompts : List PromptRow} {outputs : List OutputRow}
    {task : String} {phase : Nat} {row : PromptRow × OutputRow × OutputRow}
    (h : row ∈ battlePairRows prompts outputs task phase) :
    row.2.2.system_id ≠ row.2.1.system_id ∧ row.2.2.prompt_id = row.2.1.prompt_id := by
  unfold battlePairRows at h
  rw [List.mem_flatMap] at h
  obtain ⟨p, _, hrow⟩ := h
  split at hrow
  · rw [List.mem_flatMap] at hrow
    obtain ⟨a, _, hrow2⟩ := hrow
    split at hrow2
    · rw [List.mem_filterMap] at hrow2
      obtain ⟨b, _, hsome⟩ := hrow2
      split at hsome
      · rename_i hcond
        simp only [Option.some.injEq] at hsome
        rw [← hsome]
        exact ⟨hcond.2, hcond.1⟩
      · cases hsome
    · cases hrow2
  · cases hrow

/-- `mapWithIndex` keeps the length. -/
theorem mapWithIndex_length {α β : Type} (f : Nat → α → β) :
    ∀ (i : Nat) (l : List α), (mapWithIndex f i l).length = l.length := by
  intro i l
  induction l generalizing i with
  | nil => rfl
  | cons x xs ih => simp [mapWithIndex, ih]

/-- Members of `mapWithIndex` come from members of the list. -/
theorem mapWithIndex_mem {α β : Type} {f : Nat → α → β} :
    ∀ {i : Nat} {l : List α} {b : β}, b ∈ mapWithIndex f i l →
      ∃ j x, x ∈ l ∧ b = f j x := by
  intro i l
  induction l generalizing i with
  | nil => intro b h; cases h
  | cons x xs ih =>
    intro b h
    rcases List.mem_cons.mp h with h | h
    · exact ⟨i, x, List.mem_cons_self x xs, h⟩
    · obtain ⟨j, y, hy, hb⟩ := ih h
      exact ⟨j, y, List.mem_cons_of_mem x hy, hb⟩

/-- Every battle of the fallback sampler satisfies the battle invariant. -/
theorem random_battles_inv
    (σ : List (PromptRow × OutputRow × OutputRow) → List (PromptRow × OutputRow × OutputRow))
    (hσ : ∀ l, (σ l).Perm l) (swapO : Nat → Bool) (prompts : List PromptRow)
    (outputs : List OutputRow) (task : String) (phase : Nat) (n : Nat) :
    ∀ b ∈ random_battles σ swapO prompts outputs task phase n,
      b.output_a.prompt.id = b.output_b.prompt.id ∧
      b.output_a.system.id ≠ b.output_b.system.id := by
  intro b hb
  unfold random_battles at hb
  obtain ⟨j, row, hrow, hbeq⟩ := mapWithIndex_mem hb
  have hrows : row ∈ battlePairRows prompts outputs task phase :=
    (hσ (battlePairRows prompts outputs task phase)).mem_iff.mp
      (List.mem_of_mem_take hrow)
  have hne := (battlePairRows_mem hrows).1
  rw [hbeq]
  exact createBattleWithPrompt_inv _ row.2.1.system_id row.2.1.text
    row.2.2.system_id row.2.2.text (swapO j) hne

/-- C4: every battle emitted by the battle selector and every battle emitted by
the fallback random sampler has both outputs on the same prompt and on two
different systems. -/
theorem c4_battle_invariant :
    (∀ (o : Oracle), o.Valid →
      ∀ (fuel b : Nat) (st : SelState) (k : Nat) (picks : List Pick),
        runLoop o fuel b st k = some picks →
        ∀ p ∈ picks,
          p.battle.output_a.prompt.id = p.battle.output_b.prompt.id ∧
          p.battle.output_a.system.id ≠ p.battle.output_b.system.id) ∧
    (∀ (σ : List (PromptRow × OutputRow × OutputRow) → List (PromptRow × OutputRow × OutputRow)),
      (∀ l, (σ l).Perm l) →
      ∀ (swapO : Nat → Bool) (prompts : List PromptRow) (outputs : List OutputRow)
        (task : String) (phase : Nat) (n : Nat),
        ∀ b ∈ random_battles σ swapO prompts outputs task phase n,
          b.output_a.prompt.id = b.output_b.prompt.id ∧
          b.output_a.system.id ≠ b.output_b.system.id) :=
  ⟨fun o ho => runLoop_some_inv o ho, fun σ hσ => random_battles_inv σ hσ⟩

/-- The picks of a concrete finished selector run (state `stAllIgnored`). -/
def picksW : List Pick := (runLoop idOracle 1 1 stAllIgnored 0).getD []

/-- The single pick of that run. -/
def pickW : Pick := picksW.headD default

/-- A prompts-table row for the witness battles. -/
def promptRowW : PromptRow :=
  { prompt_id := "en_00001", task := "a-en", phase_id := 15785,
    word1 := some "w1", word2 := some "w2" }

/-- Two outputs of different systems for that prompt. -/
def outputRowsW : List OutputRow :=
  [{ prompt_id := "en_00001", system_id := "S1", text := "x" },
   { prompt_id := "en_00001", system_id := "S2", text := "y" }]

/-- The first battle the fallback sampler emits on that table. -/
def fbBattleW : Battle :=
  (random_battles (fun l => l) (fun _ => false) [promptRowW] outputRowsW
    "a-en" 15785 1).headD default

/-- Witness for C4: a concrete selector battle and a concrete fallback battle,
both checked through the theorem. -/
theorem c4_battle_invariant_witness :
    (pickW.battle.output_a.prompt.id = pickW.battle.output_b.prompt.id ∧
     pickW.battle.output_a.system.id ≠ pickW.battle.output_b.system.id) ∧
    (fbBattleW.output_a.prompt.id = fbBattleW.output_b.prompt.id ∧
     fbBattleW.output_a.system.id ≠ fbBattleW.output_b.system.id) :=
  ⟨c4_battle_invariant.1 idOracle idOracle_valid 1 1 stAllIgnored 0 picksW
      (by decide) pickW (by decide),
   c4_battle_invariant.2 (fun l => l) (fun l => List.Perm.refl l) (fun _ => false)
      [promptRowW] outputRowsW "a-en" 15785 1 fbBattleW (by decide)⟩

/-! ## C5 -/

/-- Two votes by session X that both touch output `(en_00001, S1)`, in two
distinct battles (against S2 and against S3). -/
def votesC5 : List VoteRow :=
  [{ prompt_id := "en_00001", system_id_a := "S1", system_id_b := "S2",
     session_id := "X", vote := "a", date := 0, is_offensive_a := false, is_offensive_b := false },
   { prompt_id := "en_00001", system_id_a := "S1", system_id_b := "S3",
     session_id := "X", vote := "b", date := 1, is_offensive_a := false, is_offensive_b := false }]

/-- The prompts table for the C5 scenario. -/
def promptsC5 : List PromptRow := [promptRowW]

/-- C5 counterexample: session X voted output `(en_00001, S1)` in 2 distinct
battles, but the aggregator map gives the key the value 1, not 2 — the SQL
`UNION` deduplicates the side rows before the outer count. -/
theorem c5_counterexample :
    lookup0 (sessionOutputVoteCounts votesC5 promptsC5 "X" "a-en" 15785)
        ("en_00001", "S1") = 1 ∧
    specSessionSeenCount votesC5 promptsC5 "X" "a-en" 15785 ("en_00001", "S1") = 2 ∧
    (1 : Nat) ≠ 2 := by
  refine ⟨by decide, by decide, by decide⟩

/-- Looking a key up in the count-per-element table of a duplicate-free list
gives 1 on members and 0 elsewhere. -/
theorem lookup0_count_map (u : List (String × String)) (key : String × String)
    (hnodup : u.Nodup) :
    lookup0 (u.map fun k => (k, u.countP fun e => e = k)) key =
      if key ∈ u then 1 else 0 := by
  unfold lookup0
  rw [List.find?_map]
  have hp : ((fun e : (String × String) × Nat => decide (e.1 = key)) ∘
      fun k => (k, u.countP fun e => e = k)) = fun k => decide (k = key) := rfl
  rw [hp]
  cases hfind : u.find? fun k => decide (k = key) with
  | none =>
    have hnot : key ∉ u := by
      intro hmem
      have := List.find?_eq_none.mp hfind key hmem
      simp at this
    simp [hfind, hnot]
  | some x =>
    have hx : x = key := by
      have := List.find?_some hfind
      simpa using this
    subst hx
    have hmem : x ∈ u := List.mem_of_find?_eq_some hfind
    simp only [Option.map_some', Option.getD_some, if_pos hmem]
    exact List.count_eq_one_of_mem hnodup hmem

/-- C5 amended: `sessionSeenOutputs` is an indicator, not a count: a key the
session has voted on at least once (on either side, any vote type) gets the
value 1 — even when it was voted in n ≥ 2 distinct battles — and every other
key gets 0.  (The SQL `UNION` deduplicates the rows before `COUNT(*)`.) -/
theorem c5_session_seen_is_indicator (votes : List VoteRow) (prompts : List PromptRow)
    (session_id task : String) (phase : Nat) (key : String × String) :
    lookup0 (sessionOutputVoteCounts votes prompts session_id task phase) key =
      if 0 < specSessionSeenCount votes prompts session_id task phase key then 1 else 0 := by
  unfold sessionOutputVoteCounts
  set filtered := votes.filter fun v =>
    v.session_id = session_id && votePromptMatches prompts task phase v with hfiltered
  set u := ((filtered.map fun v => (v.prompt_id, v.system_id_a)) ++
    (filtered.map fun v => (v.prompt_id, v.system_id_b))).dedup with hu
  have hnodup : u.Nodup := List.nodup_dedup _
  rw [lookup0_count_map u key hnodup]
  have hiff : key ∈ u ↔ 0 < specSessionSeenCount votes prompts session_id task phase key := by
    rw [hu, hfiltered]
    unfold specSessionSeenCount
    rw [← List.countP_eq_length_filter, List.countP_pos_iff]
    simp only [List.mem_dedup, List.mem_append, List.mem_map, List.mem_filter,
      Bool.and_eq_true, decide_eq_true_eq, Bool.or_eq_true, Prod.ext_iff]
    constructor
    · rintro (⟨v, ⟨hv, hsess, hmatch⟩, hpid, hsid⟩ | ⟨v, ⟨hv, hsess, hmatch⟩, hpid, hsid⟩)
      · exact ⟨v, hv, ⟨⟨hsess, hmatch⟩, hpid⟩, Or.inl hsid⟩
      · exact ⟨v, hv, ⟨⟨hsess, hmatch⟩, hpid⟩, Or.inr hsid⟩
    · rintro ⟨v, hv, ⟨⟨hsess, hmatch⟩, hpid⟩, hsid | hsid⟩
      · exact Or.inl ⟨v, ⟨hv, hsess, hmatch⟩, hpid, hsid⟩
      · exact Or.inr ⟨v, ⟨hv, hsess, hmatch⟩, hpid, hsid⟩
  by_cases hmem : key ∈ u
  · rw [if_pos hmem, if_pos (hiff.mp hmem)]
  · rw [if_neg hmem, if_neg fun hpos => hmem (hiff.mpr hpos)]

/-! ## C6 -/

/-- When the head anchor of the queue has partners, the scan succeeds
immediately and that head is the chosen anchor. -/
theorem scanQueue_head_success {st : SelState}
    {ps : List (Nat × String × String) → List (Nat × String × String)} {sw : Bool}
    {c : Cand} (rest : List Cand) (hps : ∀ l, (ps l).Perm l)
    (hc : partnersOf st c ≠ []) :
    ∃ pb st1, scanQueue st ps sw (c :: rest) =
      some (⟨c, pb, createBattleWithPrompt (lookupPrompt st.promptTable c.pid)
        c.sid c.text pb.2.1 pb.2.2 sw⟩, st1) := by
  simp only [scanQueue]
  rw [if_neg hc]
  have hsh : ps (partnersOf st c) ≠ [] := by
    intro hnil
    apply hc
    have hperm := hps (partnersOf st c)
    rw [hnil] at hperm
    exact (hperm.symm).eq_nil
  obtain ⟨pb, hpb⟩ := minByFst_ne_none hsh
  rw [hpb]
  exact ⟨pb, _, rfl⟩

/-- The candidate list of the scenario state, written out. -/
def scenarioCands : List Cand :=
  [⟨1, 0, 1, 0, "en_00001", "S1", "t11"⟩, ⟨0, 0, 1, 0, "en_00001", "S2", "t12"⟩,
   ⟨0, 0, 1, 0, "en_00001", "S3", "t13"⟩, ⟨0, 0, 0, 0, "en_00002", "S1", "t21"⟩,
   ⟨0, 0, 0, 0, "en_00002", "S2", "t22"⟩, ⟨0, 0, 0, 0, "en_00002", "S3", "t23"⟩]

/-- The session-seen output of the scenario: `(en_00001, S1)` as a candidate. -/
def candVoted : Cand := ⟨1, 0, 1, 0, "en_00001", "S1", "t11"⟩

/-- The fresh S1 output of the other prompt. -/
def candFreshS1 : Cand := ⟨0, 0, 0, 0, "en_00002", "S1", "t21"⟩

/-- The picks of the scenario run under the identity oracle. -/
def picksScenario : List Pick := (runLoop idOracle 2 2 stScenario 0).getD []

/-- The first pick of that run. -/
def firstPickScenario : Pick := picksScenario.headD default

/-- C6 counterexample: in the spec scenario (3 systems with outputs for 2
prompts, session-seen count 1 on `(en_00001, S1)`, zero global counts, empty
ignore-list) the identity-shuffle outcome picks `(en_00002, S1)` — an output of
system S1 — as the first battle's anchor, refuting the claim that the first
anchor must be an output of S2 or S3. -/
theorem c6_counterexample :
    runLoop idOracle 2 2 stScenario 0 = some picksScenario ∧
    picksScenario.head? = some firstPickScenario ∧
    firstPickScenario.anchor.pid = "en_00002" ∧
    firstPickScenario.anchor.sid = "S1" ∧
    stScenario.sessionVoted ("en_00001", "S1") = 1 ∧
    stScenario.sessionVoted ("en_00001", "S2") = 0 ∧
    stScenario.sessionVoted ("en_00001", "S3") = 0 := by
  refine ⟨by decide, by decide, by decide, by decide, by decide, by decide, by decide⟩

/-- C6 amended: in the scenario the candidate shuffle-and-stable-sort by the
4-tuple key guarantees that the first battle's anchor is never the
session-voted output `(en_00001, S1)` — for every realizable shuffle
behaviour — though it may be the fresh output of system S1 for the other
prompt. -/
theorem c6_first_anchor_never_voted_output (o : Oracle) (ho : o.Valid)
    (fuel : Nat) (picks : List Pick)
    (h : runLoop o fuel 2 stScenario 0 = some picks)
    (p : Pick) (hp : picks.head? = some p) :
    ¬(p.anchor.pid = "en_00001" ∧ p.anchor.sid = "S1") := by
  have h2 : (2 : Nat) = 1 + 1 := rfl
  cases fuel with
  | zero =>
    rw [h2] at h
    simp [runLoop] at h
  | succ n =>
    have hbuild : buildCandidates stScenario = scenarioCands := by decide
    have hpartAll : ∀ c ∈ scenarioCands, partnersOf stScenario c ≠ [] := by decide
    have hno : ∀ c ∈ scenarioCands, c ≠ candVoted →
        ¬(c.pid = "en_00001" ∧ c.sid = "S1") := by decide
    set q := List.insertionSort candLe (o.candShuffle 0 (buildCandidates stScenario))
      with hqdef
    have hqperm : q.Perm scenarioCands := by
      rw [hqdef, ← hbuild]
      exact (List.perm_insertionSort candLe _).trans (ho.1 0 _)
    have hsorted : List.Sorted candLe q := by
      rw [hqdef]
      exact List.sorted_insertionSort candLe _
    have hqne : q ≠ [] := by
      intro hnil
      have hlen := hqperm.length_eq
      rw [hnil] at hlen
      simp [scenarioCands] at hlen
    obtain ⟨c0, qrest, hq⟩ := List.exists_cons_of_ne_nil hqne
    have hc0mem : c0 ∈ scenarioCands := by
      apply hqperm.mem_iff.mp
      rw [hq]
      exact List.mem_cons_self c0 qrest
    have hc0ne : c0 ≠ candVoted := by
      intro heq
      have hc21q : candFreshS1 ∈ q := hqperm.mem_iff.mpr (by decide)
      have hc21rest : candFreshS1 ∈ qrest := by
        rw [hq] at hc21q
        rcases List.mem_cons.mp hc21q with h1 | h1
        · rw [heq] at h1
          exact absurd h1 (by decide)
        · exact h1
      have hle : candLe c0 candFreshS1 := by
        rw [hq] at hsorted
        exact (List.sorted_cons.mp hsorted).1 _ hc21rest
      rw [heq] at hle
      exact (by decide : ¬candLe candVoted candFreshS1) hle
    obtain ⟨pb, st1, hscan⟩ :=
      @scanQueue_head_success stScenario (o.partShuffle 0) (o.swapAB 0) c0
        qrest (ho.2 0) (hpartAll c0 hc0mem)
    rw [h2] at h
    simp only [runLoop] at h
    rw [← hqdef, hq, hscan] at h
    rw [Option.map_eq_some'] at h
    obtain ⟨picks2, _, hpicks⟩ := h
    rw [← hpicks] at hp
    simp only [List.head?_cons, Option.some.injEq] at hp
    rw [← hp]
    exact hno c0 hc0mem hc0ne

/-- Witness for the amended C6 theorem at the identity oracle. -/
theorem c6_first_anchor_never_voted_output_witness :
    ¬(firstPickScenario.anchor.pid = "en_00001" ∧
      firstPickScenario.anchor.sid = "S1") :=
  c6_first_anchor_never_voted_output idOracle idOracle_valid 2 picksScenario
    (by decide) firstPickScenario (by decide)

/-! ## C7 -/

/-- C7: the fallback sampler returns `min count available` battles (exactly
`count` whenever enough same-prompt different-system ordered output pairs
exist), and the caller pads a short selector batch with exactly the shortfall,
bringing the total returned to `batch_size`. -/
theorem c7_fallback_padding (sel : List Battle)
    (σ : List (PromptRow × OutputRow × OutputRow) → List (PromptRow × OutputRow × OutputRow))
    (hσ : ∀ l, (σ l).Perm l) (swapO : Nat → Bool) (prompts : List PromptRow)
    (outputs : List OutputRow) (task : String) (phase : Nat) (batch_size : Nat)
    (hlen : sel.length ≤ batch_size)
    (havail : batch_size - sel.length ≤ (battlePairRows prompts outputs task phase).length) :
    (∀ n, (random_battles σ swapO prompts outputs task phase n).length =
      min n (battlePairRows prompts outputs task phase).length) ∧
    (getBattleObjects sel σ swapO prompts outputs task phase batch_size).length =
      batch_size := by
  have hlenr : ∀ n, (random_battles σ swapO prompts outputs task phase n).length =
      min n (battlePairRows prompts outputs task phase).length := by
    intro n
    unfold random_battles
    rw [mapWithIndex_length, List.length_take, (hσ _).length_eq]
  refine ⟨hlenr, ?_⟩
  unfold getBattleObjects
  rw [List.length_append]
  by_cases hm : 0 < batch_size - sel.length
  · rw [if_pos hm, hlenr, Nat.min_eq_left havail]
    omega
  · rw [if_neg hm]
    simp
    omega

/-- Witness for C7: empty selector batch, batch size 1, a table with one
prompt and two systems (two ordered pairs available). -/
theorem c7_fallback_padding_witness :
    (∀ n, (random_battles (fun l => l) (fun _ => false) [promptRowW] outputRowsW
        "a-en" 15785 n).length =
      min n (battlePairRows [promptRowW] outputRowsW "a-en" 15785).length) ∧
    (getBattleObjects [] (fun l => l) (fun _ => false) [promptRowW] outputRowsW
        "a-en" 15785 1).length = 1 :=
  c7_fallback_padding [] (fun l => l) (fun l => List.Perm.refl l) (fun _ => false)
    [promptRowW] outputRowsW "a-en" 15785 1 (by decide) (by decide)

/-! ## C8 -/

/-- A finished ingestion loop saw only exact prompt-set matches. -/
theorem ingestTasks_ok {prompts : List PromptRow} {phase : Nat} {system_id : String} :
    ∀ (tfs : List (String × List (String × String))) (acc res : List OutputRow),
      ingestTasks prompts phase system_id tfs acc = .ok res →
      ∀ tf ∈ tfs,
        (tf.2.map fun r => r.1).toFinset = referencePromptIds prompts phase tf.1 := by
  intro tfs
  induction tfs with
  | nil => intro acc res h tf htf; cases htf
  | cons t ts ih =>
    intro acc res h tf htf
    obtain ⟨task, rows⟩ := t
    simp only [ingestTasks] at h
    split at h
    · rename_i hcond
      rcases List.mem_cons.mp htf with rfl | htf2
      · exact hcond
      · exact ih _ res h tf htf2
    · cases h

/-- A failed ingestion loop fails on a mismatching task file and carries
exactly its missing and extra prompt-id sets. -/
theorem ingestTasks_error {prompts : List PromptRow} {phase : Nat} {system_id : String} :
    ∀ (tfs : List (String × List (String × String))) (acc : List OutputRow)
      (e : PromptSetMismatchError),
      ingestTasks prompts phase system_id tfs acc = .error e →
      ∃ tf ∈ tfs,
        (tf.2.map fun r => r.1).toFinset ≠ referencePromptIds prompts phase tf.1 ∧
        e.missing = referencePromptIds prompts phase tf.1 \ (tf.2.map fun r => r.1).toFinset ∧
        e.extra = (tf.2.map fun r => r.1).toFinset \ referencePromptIds prompts phase tf.1 := by
  intro tfs
  induction tfs with
  | nil => intro acc e h; cases h
  | cons t ts ih =>
    intro acc e h
    obtain ⟨task, rows⟩ := t
    simp only [ingestTasks] at h
    split at h
    · rename_i hcond
      obtain ⟨tf, htf, hmis⟩ := ih _ e h
      exact ⟨tf, List.mem_cons_of_mem _ htf, hmis⟩
    · rename_i hcond
      simp only [Except.error.injEq] at h
      refine ⟨(task, rows), List.mem_cons_self _ _, hcond, ?_, ?_⟩
      · rw [← h]
      · rw [← h]

/-- C8: ingestion succeeds only when every submitted prompt-id set exactly
equals the reference set of its task; on any mismatch the whole ingestion
fails with the mismatch error carrying the missing ids (reference minus
submitted) and the extra ids (submitted minus reference), and no output rows
are persisted (no `.ok` table is produced). -/
theorem c8_prompt_set_exact_match (table : List OutputRow) (prompts : List PromptRow)
    (phase : Nat) (system_id : String)
    (taskFiles : List (String × List (String × String))) :
    (∀ res, ingest_submission table prompts phase system_id taskFiles = .ok res →
      ∀ tf ∈ taskFiles,
        (tf.2.map fun r => r.1).toFinset = referencePromptIds prompts phase tf.1) ∧
    (∀ e, ingest_submission table prompts phase system_id taskFiles = .error e →
      (∃ tf ∈ taskFiles,
        (tf.2.map fun r => r.1).toFinset ≠ referencePromptIds prompts phase tf.1 ∧
        e.missing = referencePromptIds prompts phase tf.1 \ (tf.2.map fun r => r.1).toFinset ∧
        e.extra = (tf.2.map fun r => r.1).toFinset \ referencePromptIds prompts phase tf.1) ∧
      ∀ res, ingest_submission table prompts phase system_id taskFiles ≠ .ok res) ∧
    ((∃ tf ∈ taskFiles,
        (tf.2.map fun r => r.1).toFinset ≠ referencePromptIds prompts phase tf.1) →
      ∃ e, ingest_submission table prompts phase system_id taskFiles = .error e) := by
  refine ⟨?_, ?_, ?_⟩
  · intro res h
    unfold ingest_submission at h
    cases hrun : ingestTasks prompts phase system_id taskFiles [] with
    | error e => rw [hrun] at h; cases h
    | ok rows => exact ingestTasks_ok taskFiles [] rows hrun
  · intro e h
    constructor
    · unfold ingest_submission at h
      cases hrun : ingestTasks prompts phase system_id taskFiles [] with
      | error e2 =>
        rw [hrun] at h
        simp only [Except.map, Except.error.injEq] at h
        rw [← h]
        exact ingestTasks_error taskFiles [] e2 hrun
      | ok rows => rw [hrun] at h; cases h
    · intro res hok
      rw [h] at hok
      cases hok
  · intro hex
    cases hrun : ingestTasks prompts phase system_id taskFiles [] with
    | error e =>
      refine ⟨e, ?_⟩
      unfold ingest_submission
      rw [hrun]
      rfl
    | ok rows =>
      obtain ⟨tf, htf, hne⟩ := hex
      exact absurd (ingestTasks_ok taskFiles [] rows hrun tf htf) hne

/-- Reference prompts table for the C8 witness: task b1 has two prompts. -/
def prompts8 : List PromptRow :=
  [{ prompt_id := "img_00001", task := "b1", phase_id := 15785,
     url := some "u1", prompt := some "p1" },
   { prompt_id := "img_00002", task := "b1", phase_id := 15785,
     url := some "u2", prompt := some "p2" }]

/-- A submission file for task b1 that misses `img_00002`. -/
def files8 : List (String × List (String × String)) :=
  [("b1", [("img_00001", "caption")])]

/-- Witness for C8: the short submission is rejected with a mismatch error. -/
theorem c8_prompt_set_exact_match_witness :
    ∃ e, ingest_submission [] prompts8 15785 "sys1" files8 = .error e :=
  (c8_prompt_set_exact_match [] prompts8 15785 "sys1" files8).2.2 (by decide)

/-! ## C9 -/

/-- C9 counterexample: the string `c3` is not one of the five task values, yet
the battles route does not fail — it silently replaces the task by the default
`a-en` and proceeds. -/
theorem c9_counterexample :
    battlesRouteTask "c3" = "a-en" ∧ "c3" ∉ TASK_CHOICES ∧ "a-en" ∈ TASK_CHOICES := by
  refine ⟨by decide, by decide, by decide⟩

/-- C9 amended: a battle batch request never fails on its task input; the
route always resolves to a valid task — the given one when it is among the
five task values, the default `a-en` otherwise. -/
theorem c9_invalid_task_defaults (task : String) :
    battlesRouteTask task ∈ TASK_CHOICES ∧
    (task ∈ TASK_CHOICES → battlesRouteTask task = task) ∧
    (task ∉ TASK_CHOICES → battlesRouteTask task = "a-en") := by
  by_cases hmem : task ∈ TASK_CHOICES
  · refine ⟨?_, fun _ => ?_, fun hn => absurd hmem hn⟩ <;>
      simp [battlesRouteTask, hmem]
  · refine ⟨?_, fun hmem2 => absurd hmem2 hmem, fun _ => ?_⟩ <;>
      simp [battlesRouteTask, hmem]
    decide

/-- Witness for the amended C9 theorem on the invalid task `xyz`. -/
theorem c9_invalid_task_defaults_witness :
    battlesRouteTask "xyz" ∈ TASK_CHOICES ∧ battlesRouteTask "xyz" = "a-en" :=
  ⟨(c9_invalid_task_defaults "xyz").1, (c9_invalid_task_defaults "xyz").2.2 (by decide)⟩

/-! ## C10 -/

/-- `eraseSpaces` on a cons. -/
theorem eraseSpaces_cons (c : Char) (l : List Char) :
    eraseSpaces (c :: l) = if c = ' ' then eraseSpaces l else c :: eraseSpaces l := by
  unfold eraseSpaces
  rw [List.filter_cons]
  by_cases hc : c = ' '
  · simp [hc]
  · simp [hc]

/-- A punctuation mark of the removal branch is not a space. -/
theorem isOtherPunct_ne_space {c : Char} (hp : isOtherPunct c = true) : c ≠ ' ' := by
  intro hc
  rw [hc] at hp
  exact absurd hp (by decide)

/-- The perturbation loop preserves the non-space characters: erasing every
space from its output yields the erasure of its input, for every random
behaviour. -/
theorem perturbGo_eraseSpaces (f g h : Nat → Bool) :
    ∀ (n : Nat) (l : List Char), l.length ≤ n →
      ∀ i, eraseSpaces (perturbGo f g h i l) = eraseSpaces l := by
  intro n
  induction n with
  | zero =>
    intro l hl i
    have hnil : l = [] := List.eq_nil_of_length_eq_zero (Nat.le_zero.mp hl)
    subst hnil
    simp [perturbGo]
  | succ n ih =>
    intro l hl i
    cases l with
    | nil => simp [perturbGo]
    | cons c rest =>
      simp only [perturbGo]
      split_ifs with h1 h2 h3 h4 h5 h6
      · -- period followed by a space, space removed
        obtain ⟨hc, hh⟩ := h1
        subst hc
        cases rest with
        | nil => cases hh
        | cons r rs =>
          have hr : r = ' ' := by simpa using hh
          subst hr
          rw [eraseSpaces_cons, eraseSpaces_cons, eraseSpaces_cons]
          simp only [List.tail_cons]
          rw [ih rs (by simp at hl; omega) (i + 2)]
          simp
      · -- period followed by a space, space kept
        obtain ⟨hc, _⟩ := h1
        subst hc
        rw [eraseSpaces_cons, eraseSpaces_cons,
          ih rest (by simp at hl; omega) (i + 1)]
      · -- other punctuation followed by a space, space removed
        obtain ⟨hc, hh⟩ := h3
        cases rest with
        | nil => cases hh
        | cons r rs =>
          have hr : r = ' ' := by simpa using hh
          subst hr
          rw [eraseSpaces_cons, eraseSpaces_cons, eraseSpaces_cons]
          simp only [List.tail_cons]
          rw [ih rs (by simp at hl; omega) (i + 2)]
          simp [isOtherPunct_ne_space hc]
      · -- other punctuation followed by a space, space kept
        obtain ⟨hc, _⟩ := h3
        rw [eraseSpaces_cons, eraseSpaces_cons,
          ih rest (by simp at hl; omega) (i + 1)]
      · -- space, doubled
        subst h5
        rw [eraseSpaces_cons, eraseSpaces_cons, eraseSpaces_cons,
          ih rest (by simp at hl; omega) (i + 1)]
        simp
      · -- space, kept single
        subst h5
        rw [eraseSpaces_cons, eraseSpaces_cons,
          ih rest (by simp at hl; omega) (i + 1)]
      · -- ordinary character
        rw [eraseSpaces_cons, eraseSpaces_cons, if_neg h5, if_neg h5,
          ih rest (by simp at hl; omega) (i + 1)]

/-- C10: the text perturbation applied to the texts sent to the client only
doubles or removes space characters; deleting every space from the perturbed
string yields the same result as deleting every space from the input, for
every input string and every random behaviour of the three position tests. -/
theorem c10_perturb_preserves_nonspace (f g h : Nat → Bool) (s : String) :
    eraseSpaces (perturbText f g h s).data = eraseSpaces s.data :=
  perturbGo_eraseSpaces f g h s.data.length s.data (Nat.le_refl _) 0
